import Mathlib

/-!
Verification of the approval-gated access-control core of the repository:
`tools/secure_env_manager.py` (PIN credential store, approval issuer, the two
approval verifiers) and the secrets gate of `tools/build_deployment.py`.

Shallow embedding conventions:
* The filesystem state touched by `secure_env_manager.py` is the structure
  `FS`: the PIN credential file `.secure/pin.hash` (`pinFile`, the raw byte
  list `salt || derivedKey`, `none` when absent), the per-id approval record
  files `.secure/approvals/<id>.approval` (`approvals`, an association list
  from id to parsed file content), and the ledger `HISTORICAL_CHANGE_LOG.md`
  (`history`, `none` when the file does not exist).
* The cryptographic primitives (`hashlib.pbkdf2_hmac`, `hmac.new(...).hexdigest()`)
  and `time.strftime` are opaque deterministic functions, threaded through as
  the `Crypto` parameter; claims that depend on collision-freeness of these
  primitives take that as an explicit hypothesis at the points used.
* Python exceptions that the source lets escape to the caller are modelled as
  explicit result constructors (`ApproveResult.fileNotFound`); exceptions the
  source catches (`try/except` returning `False`) are folded into the `Bool`
  result, so a verifier is a total `Bool`-valued function.
* A record file's content is parsed up front: `ApprovalFile.malformed` covers
  unparseable JSON and records without a `payload` key (any access raises and
  the enclosing `try` returns `False`); `ApprovalFile.parsed p sig` covers a
  JSON record `{"payload": ..., "sig": ...}` with `sig : Option String`
  (`none` when the key is absent).
-/

/-- An approval payload `{"id": ..., "ts": ..., "message": ...}` as built by
`approve` (and as re-serialized by the verifiers). -/
structure Payload where
  id : String
  ts : Nat
  message : String
deriving DecidableEq, Repr

/-- The content of one `.secure/approvals/<id>.approval` file, as the Python
`json.loads` + key accesses see it. -/
inductive ApprovalFile where
  | malformed : ApprovalFile
  | parsed (payload : Payload) (sig : Option String) : ApprovalFile
deriving DecidableEq, Repr

/-- PBKDF2 iteration count from `secure_env_manager.py` (`ITER = 200_000`). -/
def ITER : Nat := 200000

/-- Salt length from `secure_env_manager.py` (`SALT_LEN = 16`). -/
def SALT_LEN : Nat := 16

/-- The opaque deterministic primitives used by the tool: `pbkdf2 pin salt iter`
models `hashlib.pbkdf2_hmac('sha256', pin, salt, iter)`, `hmacHex key msg`
models `hmac.new(key, msg, 'sha256').hexdigest()`, and `fmtTime ts` models
`time.strftime('%Y-%m-%d %H:%M:%S', time.gmtime(ts))`. -/
structure Crypto where
  pbkdf2 : String → List Nat → Nat → List Nat
  hmacHex : String → String → String
  fmtTime : Nat → String

/-- Lower-case hex digit, as printed by Python's `"\\u%04x"` escapes. -/
def hexDigit (n : Nat) : Char :=
  if n < 10 then Char.ofNat (48 + n) else Char.ofNat (87 + n)

/-- A `\uXXXX` escape with four lower-case hex digits. -/
def uEscape4 (n : Nat) : String :=
  String.mk ['\\', 'u', hexDigit (n / 4096 % 16), hexDigit (n / 256 % 16),
             hexDigit (n / 16 % 16), hexDigit (n % 16)]

/-- Escaping of one character in a JSON string literal, following Python's
`json.dumps` with its default `ensure_ascii=True`: `"` and `\` get a
backslash, the short escapes `\n \t \r \b \f` are used, other control
characters and every non-ASCII character become `\uXXXX` (a surrogate pair
above the BMP). -/
def jsonEscapeChar (ch : Char) : String :=
  let n := ch.toNat
  if ch = '"' then "\\\""
  else if ch = '\\' then "\\\\"
  else if ch = '\n' then "\\n"
  else if ch = '\t' then "\\t"
  else if ch = '\r' then "\\r"
  else if n = 8 then "\\b"
  else if n = 12 then "\\f"
  else if n < 32 then uEscape4 n
  else if n < 127 then String.singleton ch
  else if n < 65536 then uEscape4 n
  else uEscape4 (55296 + (n - 65536) / 1024) ++ uEscape4 (56320 + (n - 65536) % 1024)

/-- A JSON string literal for `s`, as `json.dumps` renders it. -/
def jstr (s : String) : String :=
  "\"" ++ String.join (s.data.map jsonEscapeChar) ++ "\""

/-- `json.dumps(payload, sort_keys=True).encode('utf-8')`: the canonical
serialization of a payload dict `{"id", "ts", "message"}`. With `sort_keys`
the keys come out in the order `id`, `message`, `ts`, with the default
separators `", "` and `": "`. -/
def dumpsPayload (p : Payload) : String :=
  "\x7b\"id\": " ++ jstr p.id ++ ", \"message\": " ++ jstr p.message ++
    ", \"ts\": " ++ toString p.ts ++ "\x7d"

/-- The filesystem state that `secure_env_manager.py` reads and writes. -/
structure FS where
  pinFile : Option (List Nat)
  approvals : List (String × ApprovalFile)
  history : Option String
deriving Repr

/-- Reading the file `<key>.approval` from the approvals directory:
`none` when no such file exists. -/
def lookupFile : List (String × ApprovalFile) → String → Option ApprovalFile
  | [], _ => none
  | (k, v) :: rest, key => if k = key then some v else lookupFile rest key

/-- `path.write_text(...)` for an approval record: replaces the file if it
exists, creates it otherwise. -/
def writeFile : List (String × ApprovalFile) → String → ApprovalFile →
    List (String × ApprovalFile)
  | [], key, v => [(key, v)]
  | (k, w) :: rest, key, v =>
      if k = key then (key, v) :: rest else (k, w) :: writeFile rest key v

/-- `pat` starts the list `hay` (helper for Python's substring test). -/
def startsWithL : List Char → List Char → Bool
  | _, [] => true
  | [], _ :: _ => false
  | h :: hs, p :: ps => (h = p) && startsWithL hs ps

/-- `pat` occurs contiguously somewhere in `hay` (helper for Python's
substring test). -/
def containsL : List Char → List Char → Bool
  | [], pat => startsWithL [] pat
  | h :: hs, pat => startsWithL (h :: hs) pat || containsL hs pat

/-- Python's `needle in hay` on strings: contiguous substring containment. -/
def strContains (hay needle : String) : Bool :=
  containsL hay.data needle.data

/-- `_check_pin(pin)` (lines 60-68): `False` when `.secure/pin.hash` does not
exist; otherwise split the file bytes at `SALT_LEN`, recompute PBKDF2 and
compare with `hmac.compare_digest` (equality of byte strings). -/
def check_pin (c : Crypto) (fs : FS) (pin : String) : Bool :=
  match fs.pinFile with
  | none => false
  | some data => decide (c.pbkdf2 pin (data.take SALT_LEN) ITER = data.drop SALT_LEN)

/-- `set_pin()` (lines 42-57), with the interactive inputs as parameters:
`confirm` is the overwrite confirmation (only consulted when a PIN file
already exists), `pin`/`pin2` the two PIN prompts, `salt` the fresh
`os.urandom(SALT_LEN)` bytes. Aborts (state unchanged) unless the
confirmation is the literal `YES` and the two PIN entries match; otherwise
writes `salt + dk` to the PIN file. -/
def set_pin (c : Crypto) (fs : FS) (confirm : String) (pin pin2 : String)
    (salt : List Nat) : FS :=
  if fs.pinFile.isSome && confirm != "YES" then fs
  else if pin != pin2 then fs
  else { fs with pinFile := some (salt ++ c.pbkdf2 pin salt ITER) }

/-- Outcome of one `approve` call. `invalidPin`: `_check_pin` failed, the
function printed `Invalid PIN` and returned with no writes. `fileNotFound`:
the record file was written but `HISTORY.read_text()` raised
`FileNotFoundError` (the ledger file does not exist), which `approve` does
not catch. `ok aid`: both writes happened and the id was printed. -/
inductive ApproveResult where
  | invalidPin : ApproveResult
  | fileNotFound : ApproveResult
  | ok (aid : String) : ApproveResult
deriving DecidableEq, Repr

/-- The ledger line appended by `approve` (line 88):
`- [<formatted ts>] APPROVAL: id=<aid> message=<message>\n`. -/
def ledgerEntry (c : Crypto) (aid : String) (ts : Nat) (message : String) : String :=
  "- [" ++ c.fmtTime ts ++ "] APPROVAL: id=" ++ aid ++ " message=" ++ message ++ "\n"

/-- `approve(message, pin)` (lines 71-91). The generated `uuid.uuid4()` id and
`time.time()` timestamp are the parameters `aid` and `ts`. After the PIN
check it builds the payload, signs it with HMAC keyed by the raw PIN,
writes the record file (unconditionally — `path.write_text` overwrites any
existing file of that name), then appends the ledger entry via
`HISTORY.write_text(HISTORY.read_text() + entry)`, which raises when the
ledger file does not exist. -/
def approve (c : Crypto) (fs : FS) (pin message aid : String) (ts : Nat) :
    FS × ApproveResult :=
  if check_pin c fs pin = false then (fs, .invalidPin)
  else
    let payload : Payload := { id := aid, ts := ts, message := message }
    let sig := c.hmacHex pin (dumpsPayload payload)
    let fs1 := { fs with
      approvals := writeFile fs.approvals aid (.parsed payload (some sig)) }
    match fs.history with
    | none => (fs1, .fileNotFound)
    | some t =>
        ({ fs1 with history := some (t ++ ledgerEntry c aid ts message) }, .ok aid)

/-- `verify_approval(approval_id)` (lines 110-128): `False` when the record
file is missing; the `try` block parses it, accesses `rec['payload']`
(a malformed file or a missing key raises — caught, `False`), then reads the
ledger (`HISTORY.read_text()` raising on a missing ledger is likewise
caught, `False`) and requires the id to occur in its text. -/
def verify_approval (fs : FS) (approval_id : String) : Bool :=
  match lookupFile fs.approvals approval_id with
  | none => false
  | some .malformed => false
  | some (.parsed _ _) =>
      match fs.history with
      | none => false
      | some text => strContains text approval_id

/-- `verify_approval_with_pin(approval_id, pin)` (lines 131-163): `False` when
the record file is missing; inside the `try`, parse, take `rec['payload']`
and `rec.get('sig')`; a falsy `sig` (absent key or empty string) fails
closed; recompute the HMAC over the canonical payload serialization keyed
by the supplied PIN and compare with `hmac.compare_digest`; only on a match
check ledger membership (a missing ledger raises, is caught, `False`). -/
def verify_approval_with_pin (c : Crypto) (fs : FS) (approval_id pin : String) : Bool :=
  match lookupFile fs.approvals approval_id with
  | none => false
  | some .malformed => false
  | some (.parsed payload sigOpt) =>
      match sigOpt with
      | none => false
      | some sig =>
          if sig = "" then false
          else if c.hmacHex pin (dumpsPayload payload) = sig then
            match fs.history with
            | none => false
            | some text => strContains text approval_id
          else false

/-- Python truthiness of the `--approval-id` argument in `build` (line 75,
`if not approval_id`): `None` and the empty string are falsy. -/
def truthy (approvalId : Option String) : Bool :=
  match approvalId with
  | none => false
  | some s => s != ""

/-- The ledger membership test `build` performs (line 80): `False` when the
ledger file does not exist (`hist.exists()`), otherwise a raw substring test
on its text (`approval_id not in hist.read_text()`). -/
def ledgerContains (hist : Option String) (aid : String) : Bool :=
  match hist with
  | none => false
  | some text => strContains text aid

/-- `gather_files(include_secrets)` of `build_deployment.py` (lines 42-64).
The walk over `INCLUDE_FILES`, `INCLUDE_DIRS` and `tools/*.py` with the
`EXCLUDE_PATTERNS` filter is abstracted as the parameter `repoFiles` (the
sorted deduplicated list it produces for the repository's non-secret
files); the function's one decision relevant here is whether
`ops/secrets.env` joins the list: it does exactly when secrets were
requested and the file exists. -/
def gather_files (repoFiles : List String) (secretsExists includeSecrets : Bool) :
    List String :=
  repoFiles ++ (if includeSecrets && secretsExists then ["ops/secrets.env"] else [])

/-- Result of one `build(output, include_secrets, approval_id)` call.
`refused code`: `raise SystemExit(code)` from the approval gate (lines
74-82), before the `try` block that copies files, writes the manifest,
report and archive — so a refusal produces no outputs at all. `ok included`:
the gate passed (or secrets were not requested) and the build ran, copying
`included` and writing the archive plus reports. -/
inductive BuildResult where
  | refused (code : Nat) : BuildResult
  | ok (included : List String) : BuildResult
deriving DecidableEq, Repr

/-- `build` of `build_deployment.py` (lines 67-129), restricted to the state
it consults: the ledger text `hist`, the abstract non-secret file list
`repoFiles`, and whether `ops/secrets.env` exists. When secrets are
requested it refuses with exit code 2 on a falsy approval id, then refuses
with exit code 2 unless the id occurs in the ledger text; only past the
gate does it gather and copy files. -/
def build (hist : Option String) (repoFiles : List String) (secretsExists : Bool)
    (includeSecrets : Bool) (approvalId : Option String) : BuildResult :=
  if includeSecrets && !truthy approvalId then .refused 2
  else if includeSecrets && !ledgerContains hist (approvalId.getD "") then .refused 2
  else .ok (gather_files repoFiles secretsExists includeSecrets)

/-- The gate verdict of a `build` call: did it get past the approval gate. -/
def granted : BuildResult → Bool
  | .refused _ => false
  | .ok _ => true

/-! ### Helper lemmas about the store and substring operations -/

theorem lookupFile_writeFile_self (files : List (String × ApprovalFile))
    (key : String) (v : ApprovalFile) :
    lookupFile (writeFile files key v) key = some v := by
  induction files with
  | nil => simp [writeFile, lookupFile]
  | cons hd tl ih =>
      obtain ⟨k, w⟩ := hd
      by_cases h : k = key
      · simp [writeFile, lookupFile, h]
      · simp [writeFile, lookupFile, h, ih]

theorem startsWithL_append (pat rest : List Char) :
    startsWithL (pat ++ rest) pat = true := by
  induction pat with
  | nil => simp [startsWithL]
  | cons p ps ih => simp [startsWithL, ih]

theorem containsL_of_startsWithL (hay pat : List Char)
    (h : startsWithL hay pat = true) : containsL hay pat = true := by
  cases hay with
  | nil => simpa [containsL] using h
  | cons x xs => simp [containsL, h]

theorem containsL_append_left (a rest pat : List Char)
    (h : containsL rest pat = true) : containsL (a ++ rest) pat = true := by
  induction a with
  | nil => simpa using h
  | cons x xs ih => simp [containsL, ih]

theorem containsL_infix (a pat b : List Char) :
    containsL (a ++ (pat ++ b)) pat = true :=
  containsL_append_left a (pat ++ b) pat
    (containsL_of_startsWithL (pat ++ b) pat (startsWithL_append pat b))

theorem strContains_ledgerEntry (c : Crypto) (t : String) (aid : String)
    (ts : Nat) (message : String) :
    strContains (t ++ ledgerEntry c aid ts message) aid = true := by
  have hdata : (t ++ ledgerEntry c aid ts message).data =
      (t.data ++ ("- [" ++ c.fmtTime ts ++ "] APPROVAL: id=").data) ++
        (aid.data ++ (" message=" ++ message ++ "\n").data) := by
    simp [ledgerEntry, String.data_append]
  simp only [strContains, hdata]
  exact containsL_infix _ aid.data _

/-! ### Claim theorems -/

/-- Claim C1: `verify_approval_with_pin` returns `true` if and only if the
record file for the id exists and parses, its signature field is present and
equals the HMAC-SHA256 of the canonical (sort_keys) serialization of the
payload keyed by the supplied PIN, and the id occurs in the ledger file; on
any missing file, malformed JSON or missing signature it returns `false`
(and, being a total `Bool`-valued function, never raises). The hypothesis
`hne` is the fact that a SHA-256 hex digest is never the empty string, which
the source's falsy-`sig` guard silently relies on. -/
theorem C1_verify_with_pin_iff (c : Crypto) (fs : FS) (approval_id pin : String)
    (hne : ∀ k m, c.hmacHex k m ≠ "") :
    verify_approval_with_pin c fs approval_id pin = true ↔
      ∃ p s, lookupFile fs.approvals approval_id = some (.parsed p (some s)) ∧
        s = c.hmacHex pin (dumpsPayload p) ∧
        ∃ text, fs.history = some text ∧ strContains text approval_id = true := by
  cases hl : lookupFile fs.approvals approval_id with
  | none => simp [verify_approval_with_pin, hl]
  | some f =>
    cases f with
    | malformed => simp [verify_approval_with_pin, hl]
    | parsed p sigOpt =>
      cases sigOpt with
      | none => simp [verify_approval_with_pin, hl]
      | some sig =>
        by_cases hs : sig = ""
        · subst hs
          constructor
          · intro h
            simp [verify_approval_with_pin, hl] at h
          · rintro ⟨p2, s2, heq, hsig, -⟩
            exfalso
            simp only [Option.some.injEq, ApprovalFile.parsed.injEq] at heq
            obtain ⟨hp, hs2⟩ := heq
            exact hne pin (dumpsPayload p2) (hsig.symm.trans hs2.symm)
        · by_cases hm : c.hmacHex pin (dumpsPayload p) = sig
          · cases hh : fs.history with
            | none => simp [verify_approval_with_pin, hl, hs, hm, hh]
            | some text =>
                simp only [verify_approval_with_pin, hl, hs, hm, hh,
                  Option.some.injEq, ApprovalFile.parsed.injEq, if_neg hs, if_pos hm]
                constructor
                · intro h
                  exact ⟨p, sig, ⟨rfl, rfl⟩, hm.symm, text, rfl, h⟩
                · rintro ⟨p2, s2, ⟨hp, hs2⟩, -, t2, ht2, h⟩
                  cases ht2
                  exact h
          · constructor
            · intro h
              simp [verify_approval_with_pin, hl, hs, hm] at h
            · rintro ⟨p2, s2, heq, hsig, -⟩
              exfalso
              simp only [Option.some.injEq, ApprovalFile.parsed.injEq] at heq
              obtain ⟨hp, hs2⟩ := heq
              subst hp
              exact hm (hs2 ▸ hsig.symm)

/-- Claim C3: `verify_approval` returns `true` if and only if a persisted
record file for the id exists and parses (has a `payload` key) and the id
string occurs in the ledger file; and in any state whose ledger text does not
contain the id, both `verify_approval` and `verify_approval_with_pin` return
`false` even when the signed record file is still present. -/
theorem C3_verify_exists_iff (fs : FS) (approval_id : String) :
    (verify_approval fs approval_id = true ↔
      (∃ p sigOpt, lookupFile fs.approvals approval_id = some (.parsed p sigOpt)) ∧
        ∃ text, fs.history = some text ∧ strContains text approval_id = true) ∧
    (∀ (c : Crypto) (pin text : String), fs.history = some text →
      strContains text approval_id = false →
      verify_approval fs approval_id = false ∧
      verify_approval_with_pin c fs approval_id pin = false) := by
  constructor
  · cases hl : lookupFile fs.approvals approval_id with
    | none => simp [verify_approval, hl]
    | some f =>
      cases f with
      | malformed => simp [verify_approval, hl]
      | parsed p sigOpt =>
        cases hh : fs.history with
        | none => simp [verify_approval, hl, hh]
        | some text => simp [verify_approval, hl, hh]
  · intro c pin text hh hcont
    constructor
    · cases hl : lookupFile fs.approvals approval_id with
      | none => simp [verify_approval, hl]
      | some f =>
        cases f with
        | malformed => simp [verify_approval, hl]
        | parsed p sigOpt => simp [verify_approval, hl, hh, hcont]
    · cases hl : lookupFile fs.approvals approval_id with
      | none => simp [verify_approval_with_pin, hl]
      | some f =>
        cases f with
        | malformed => simp [verify_approval_with_pin, hl]
        | parsed p sigOpt =>
          cases sigOpt with
          | none => simp [verify_approval_with_pin, hl]
          | some sig =>
            by_cases hs : sig = ""
            · simp [verify_approval_with_pin, hl, hs]
            · by_cases hm : c.hmacHex pin (dumpsPayload p) = sig
              · simp [verify_approval_with_pin, hl, hs, hm, hh, hcont]
              · simp [verify_approval_with_pin, hl, hs, hm]

/-- Claim C4: when the supplied PIN does not verify against the stored
credential — in particular whenever no credential file is configured —
`approve` returns immediately with `Invalid PIN` and the state is unchanged:
no record file is written and no ledger entry is appended. -/
theorem C4_invalid_pin_no_writes (c : Crypto) (fs : FS)
    (pin message aid : String) (ts : Nat) :
    (check_pin c fs pin = false →
      approve c fs pin message aid ts = (fs, .invalidPin)) ∧
    (fs.pinFile = none → check_pin c fs pin = false) := by
  constructor
  · intro h
    simp [approve, h]
  · intro h
    simp [check_pin, h]

/-- Claim C5 (amended): `approve` performs no collision check on the generated
id. After a successful PIN check the record file for `aid` holds exactly the
newly signed record, regardless of any record previously stored under that
id — `path.write_text` silently overwrites it. -/
theorem C5_overwrite (c : Crypto) (fs : FS) (pin message aid : String) (ts : Nat)
    (hpin : check_pin c fs pin = true) :
    lookupFile (approve c fs pin message aid ts).1.approvals aid =
      some (.parsed { id := aid, ts := ts, message := message }
        (some (c.hmacHex pin
          (dumpsPayload { id := aid, ts := ts, message := message })))) := by
  cases hh : fs.history with
  | none => simp [approve, hpin, hh, lookupFile_writeFile_self]
  | some t => simp [approve, hpin, hh, lookupFile_writeFile_self]

/-- Claim C6 (amended): when the ledger file does not exist, every ledger
membership check inside the two verifiers yields `false` rather than raising
(the `FileNotFoundError` from `HISTORY.read_text()` is caught by their
`try`); but the ledger append in `approve` does not create the file:
`approve` propagates the `FileNotFoundError` (after the record file has
already been written) and the ledger remains absent. -/
theorem C6_no_ledger (c : Crypto) (fs : FS) (pin message aid : String) (ts : Nat)
    (hh : fs.history = none) :
    verify_approval fs aid = false ∧
    (∀ pin2, verify_approval_with_pin c fs aid pin2 = false) ∧
    ((approve c fs pin message aid ts).2 = .invalidPin ∨
      (approve c fs pin message aid ts).2 = .fileNotFound) ∧
    (approve c fs pin message aid ts).1.history = none := by
  refine ⟨?_, ?_, ?_, ?_⟩
  · cases hl : lookupFile fs.approvals aid with
    | none => simp [verify_approval, hl]
    | some f =>
      cases f with
      | malformed => simp [verify_approval, hl]
      | parsed p sigOpt => simp [verify_approval, hl, hh]
  · intro pin2
    cases hl : lookupFile fs.approvals aid with
    | none => simp [verify_approval_with_pin, hl]
    | some f =>
      cases f with
      | malformed => simp [verify_approval_with_pin, hl]
      | parsed p sigOpt =>
        cases sigOpt with
        | none => simp [verify_approval_with_pin, hl]
        | some sig =>
          by_cases hs : sig = ""
          · simp [verify_approval_with_pin, hl, hs]
          · by_cases hm : c.hmacHex pin2 (dumpsPayload p) = sig
            · simp [verify_approval_with_pin, hl, hs, hm, hh]
            · simp [verify_approval_with_pin, hl, hs, hm]
  · by_cases hcp : check_pin c fs pin = false
    · exact Or.inl (by simp [approve, hcp])
    · exact Or.inr (by simp [approve, hcp, hh])
  · by_cases hcp : check_pin c fs pin = false
    · simp [approve, hcp, hh]
    · simp [approve, hcp, hh]

/-- Claim C7: setting the PIN (with matching entries and, when a PIN file
already exists, the typed confirmation `YES`) and then checking the same PIN
succeeds, while checking any PIN whose derived key differs (collision-freeness
of PBKDF2 at this salt) fails. -/
theorem C7_set_then_check (c : Crypto) (fs : FS) (pin confirm : String)
    (salt : List Nat)
    (hc : fs.pinFile = none ∨ confirm = "YES")
    (hs : salt.length = SALT_LEN) :
    check_pin c (set_pin c fs confirm pin pin salt) pin = true ∧
    ∀ pin2, c.pbkdf2 pin2 salt ITER ≠ c.pbkdf2 pin salt ITER →
      check_pin c (set_pin c fs confirm pin pin salt) pin2 = false := by
  have hset : set_pin c fs confirm pin pin salt =
      { fs with pinFile := some (salt ++ c.pbkdf2 pin salt ITER) } := by
    rcases hc with hnone | hyes
    · simp [set_pin, hnone]
    · simp [set_pin, hyes]
  have htake : (salt ++ c.pbkdf2 pin salt ITER).take SALT_LEN = salt := by
    rw [← hs]
    exact List.take_left salt _
  have hdrop : (salt ++ c.pbkdf2 pin salt ITER).drop SALT_LEN =
      c.pbkdf2 pin salt ITER := by
    rw [← hs]
    exact List.drop_left salt _
  constructor
  · simp [hset, check_pin, htake, hdrop]
  · intro pin2 hne2
    simp [hset, check_pin, htake, hdrop, hne2]

/-- Claim C2: after a successful `approve` (valid PIN, ledger present)
returning id `aid`, `verify_approval aid` is `true`, stays `true` in any
state with the same record store and ledger (the verifiers are pure functions
of those files), `verify_approval_with_pin aid` succeeds with the issuing PIN
and fails with every PIN whose HMAC over the signed payload differs
(collision-freeness of the MAC at this payload). The hypothesis `hne` is the
fact that a SHA-256 hex digest is never empty. -/
theorem C2_issue_then_verify (c : Crypto) (fs : FS) (pin message aid : String)
    (ts : Nat) (t : String)
    (hpin : check_pin c fs pin = true)
    (hh : fs.history = some t)
    (hne : c.hmacHex pin
      (dumpsPayload { id := aid, ts := ts, message := message }) ≠ "") :
    (approve c fs pin message aid ts).2 = .ok aid ∧
    verify_approval (approve c fs pin message aid ts).1 aid = true ∧
    verify_approval_with_pin c (approve c fs pin message aid ts).1 aid pin = true ∧
    (∀ pin2,
      c.hmacHex pin2 (dumpsPayload { id := aid, ts := ts, message := message }) ≠
        c.hmacHex pin (dumpsPayload { id := aid, ts := ts, message := message }) →
      verify_approval_with_pin c (approve c fs pin message aid ts).1 aid pin2 = false) ∧
    (∀ fs2 : FS, fs2.approvals = (approve c fs pin message aid ts).1.approvals →
      fs2.history = (approve c fs pin message aid ts).1.history →
      verify_approval fs2 aid = true) := by
  have hres : approve c fs pin message aid ts =
      ({ pinFile := fs.pinFile,
         approvals := writeFile fs.approvals aid
           (.parsed { id := aid, ts := ts, message := message }
             (some (c.hmacHex pin
               (dumpsPayload { id := aid, ts := ts, message := message })))),
         history := some (t ++ ledgerEntry c aid ts message) }, .ok aid) := by
    simp [approve, hpin, hh]
  refine ⟨by simp [hres], ?_, ?_, ?_, ?_⟩
  · simp [hres, verify_approval, lookupFile_writeFile_self, strContains_ledgerEntry]
  · simp [hres, verify_approval_with_pin, lookupFile_writeFile_self, hne,
      strContains_ledgerEntry]
  · intro pin2 hne2
    simp [hres, verify_approval_with_pin, lookupFile_writeFile_self, hne2]
  · intro fs2 h1 h2
    rw [hres] at h1 h2
    simp only at h1 h2
    simp [verify_approval, h1, h2, lookupFile_writeFile_self, strContains_ledgerEntry]

/-- Claim C8: if the persisted payload was mutated after signing while the
signature was left unchanged, then — under the collision-resistance
hypothesis that no PIN's HMAC over the mutated payload equals the stored
signature — `verify_approval_with_pin` returns `false` for every PIN, while
`verify_approval` on the same state still returns `true`. -/
theorem C8_mutation_invalidates (c : Crypto) (fs : FS) (aid : String)
    (p : Payload) (sig : String) (t : String)
    (hlook : lookupFile fs.approvals aid = some (.parsed p (some sig)))
    (hh : fs.history = some t)
    (hcont : strContains t aid = true)
    (hmacne : ∀ pin, c.hmacHex pin (dumpsPayload p) ≠ sig) :
    (∀ pin, verify_approval_with_pin c fs aid pin = false) ∧
    verify_approval fs aid = true := by
  constructor
  · intro pin
    by_cases hs : sig = ""
    · simp [verify_approval_with_pin, hlook, hs]
    · simp [verify_approval_with_pin, hlook, hs, hmacne pin]
  · simp [verify_approval, hlook, hh, hcont]

/-- Claim C9: in `build`, when secrets inclusion is requested and the approval
id is falsy (absent or empty) the call refuses with `SystemExit(2)` before the
copy/archive phase; and when an approval id is supplied but does not occur in
the ledger text (or the ledger file is missing) it likewise refuses with
`SystemExit(2)`. In both cases the result is `BuildResult.refused 2`, which
carries no copied files and no archive: the refusal happens before the `try`
block that creates any output. -/
theorem C9_build_gate (hist : Option String) (repoFiles : List String)
    (secretsExists : Bool) (approvalId : Option String) :
    (truthy approvalId = false →
      build hist repoFiles secretsExists true approvalId = .refused 2) ∧
    (∀ aid, approvalId = some aid → aid ≠ "" → ledgerContains hist aid = false →
      build hist repoFiles secretsExists true approvalId = .refused 2) := by
  constructor
  · intro h
    simp [build, h]
  · intro aid ha hne hledger
    subst ha
    simp [build, truthy, hne, hledger]

/-- Claim C10 (implicit): the secrets gate of `build` grants inclusion exactly
when the supplied (non-empty) approval id occurs as a substring of the ledger
file's text — for every ledger text and independently of the approval record
store, which `build` never consults; in particular there is a state with no
record file at all for the id (so `verify_approval` denies it) in which the
gate still grants. -/
theorem C10_gate_substring_only :
    (∀ (hist : Option String) (repoFiles : List String) (secretsExists : Bool)
        (aid : String), aid ≠ "" →
      granted (build hist repoFiles secretsExists true (some aid)) =
        ledgerContains hist aid) ∧
    (∃ fs : FS, ∃ aid : String,
      lookupFile fs.approvals aid = none ∧
      verify_approval fs aid = false ∧
      granted (build fs.history [] false true (some aid)) = true) := by
  constructor
  · intro hist repoFiles secretsExists aid hne
    by_cases hl : ledgerContains hist aid
    · simp [build, truthy, hne, hl, granted]
    · simp [build, truthy, hne, hl, granted]
  · exact ⟨{ pinFile := none, approvals := [], history := some "id=deadbeef done" },
      "deadbeef", by decide, by decide, by decide⟩

/-! ### Concrete instantiations for the witness and counterexample theorems -/

/-- A concrete stand-in for PBKDF2 used to evaluate the model on closed
inputs: deterministic and PIN- and salt-sensitive. -/
def demoPbkdf2 (pin : String) (salt : List Nat) (_iter : Nat) : List Nat :=
  pin.data.map Char.toNat ++ salt

/-- A concrete stand-in for the HMAC hex digest: deterministic and sensitive
to both key and message. -/
def demoHmac (key msg : String) : String :=
  key ++ ":" ++ msg

/-- Concrete primitives for evaluating the model on closed inputs. -/
def demoCrypto : Crypto :=
  { pbkdf2 := demoPbkdf2, hmacHex := demoHmac, fmtTime := fun _ => "1970-01-01 00:00:01" }

/-- Concrete primitives whose MAC ignores its key: lets the universally
quantified MAC-collision hypotheses be discharged on closed inputs. -/
def msgOnlyCrypto : Crypto :=
  { pbkdf2 := demoPbkdf2, hmacHex := fun _ msg => "H" ++ msg,
    fmtTime := fun _ => "1970-01-01 00:00:01" }

/-- Concrete primitives with a constant MAC digest: lets the digest-nonempty
hypothesis be discharged on closed inputs. -/
def constCrypto : Crypto :=
  { pbkdf2 := demoPbkdf2, hmacHex := fun _ _ => "x",
    fmtTime := fun _ => "1970-01-01 00:00:01" }

/-- A concrete 16-byte salt. -/
def demoSalt : List Nat := List.replicate 16 0

/-- A PIN file holding the credential for the PIN `p` under `demoCrypto`. -/
def demoPinFile : List Nat := demoSalt ++ demoPbkdf2 "p" demoSalt ITER

/-- State for the C1 witness: one well-formed record signed (under
`constCrypto`) and recorded in the ledger. -/
def fsC1 : FS :=
  { pinFile := none,
    approvals := [("A", .parsed { id := "A", ts := 1, message := "m" } (some "x"))],
    history := some "APPROVAL: id=A" }

/-- State for the C2 witness: PIN `p` configured, no approvals yet, ledger
present. -/
def fsC2 : FS :=
  { pinFile := some demoPinFile, approvals := [], history := some "LOG\n" }

/-- State for the C3 witness: a well-formed signed record whose id does not
occur in the ledger text. -/
def fsC3 : FS :=
  { pinFile := none,
    approvals := [("A", .parsed { id := "A", ts := 1, message := "m" } (some "s"))],
    history := some "no match here" }

/-- State for the C4 witness: no credential configured. -/
def fsC4 : FS :=
  { pinFile := none, approvals := [], history := some "" }

/-- State for C5: PIN `p` configured and a record already persisted under the
id `X`. -/
def fsC5 : FS :=
  { pinFile := some demoPinFile,
    approvals := [("X", .parsed { id := "X", ts := 1, message := "old" } (some "oldsig"))],
    history := some "" }

/-- State for C6: PIN `p` configured but the ledger file does not exist. -/
def fsC6 : FS :=
  { pinFile := some demoPinFile, approvals := [], history := none }

/-- State for the C7 witness: nothing configured yet. -/
def fsC7 : FS :=
  { pinFile := none, approvals := [], history := none }

/-- The payload originally signed in the C8 scenario. -/
def pOrig : Payload := { id := "A", ts := 1, message := "orig" }

/-- The mutated payload in the C8 scenario (message changed after signing). -/
def pMut : Payload := { id := "A", ts := 1, message := "changed" }

/-- State for the C8 witness: the record holds the mutated payload but still
the signature of the original one (under `msgOnlyCrypto`); the id is in the
ledger. -/
def fsC8 : FS :=
  { pinFile := none,
    approvals := [("A", .parsed pMut (some ("H" ++ dumpsPayload pOrig)))],
    history := some "APPROVAL: id=A" }

/-! ### Witnesses and counterexamples -/

/-- Witness for C1: the iff instantiated at a concrete state where all four
conditions hold, with the digest-nonempty hypothesis discharged for
`constCrypto`. -/
theorem C1_witness : verify_approval_with_pin constCrypto fsC1 "A" "p" = true :=
  (C1_verify_with_pin_iff constCrypto fsC1 "A" "p"
      (fun _ _ => by show ("x" : String) ≠ ""; decide)).mpr
    ⟨{ id := "A", ts := 1, message := "m" }, "x", by decide, by decide,
      "APPROVAL: id=A", rfl, by decide⟩

/-- Witness for C2: after a concrete successful issuance, strict verification
succeeds with the issuing PIN `p` and fails with the different PIN `q`. -/
theorem C2_witness :
    verify_approval_with_pin demoCrypto
      (approve demoCrypto fsC2 "p" "m" "A" 1).1 "A" "p" = true ∧
    verify_approval_with_pin demoCrypto
      (approve demoCrypto fsC2 "p" "m" "A" 1).1 "A" "q" = false :=
  ⟨(C2_issue_then_verify demoCrypto fsC2 "p" "m" "A" 1 "LOG\n"
      (by decide) rfl (by decide)).2.2.1,
   (C2_issue_then_verify demoCrypto fsC2 "p" "m" "A" 1 "LOG\n"
      (by decide) rfl (by decide)).2.2.2.1 "q" (by decide)⟩

/-- Witness for C3: a concrete state where the signed record remains but the
ledger text lacks the id — both verification modes deny. -/
theorem C3_witness :
    verify_approval fsC3 "A" = false ∧
    verify_approval_with_pin demoCrypto fsC3 "A" "p" = false :=
  (C3_verify_exists_iff fsC3 "A").2 demoCrypto "p" "no match here" rfl (by decide)

/-- Witness for C4: with no credential configured, a concrete `approve` call
returns `Invalid PIN` and leaves the state untouched. -/
theorem C4_witness :
    approve demoCrypto fsC4 "p" "m" "A" 1 = (fsC4, .invalidPin) :=
  (C4_invalid_pin_no_writes demoCrypto fsC4 "p" "m" "A" 1).1
    ((C4_invalid_pin_no_writes demoCrypto fsC4 "p" "m" "A" 1).2 rfl)

/-- Counterexample for C5 as stated: at a concrete state with a record already
persisted under the id `X`, `approve` generating the same id succeeds (no
fatal generation error) and the pre-existing record has been replaced. -/
theorem C5_counterexample :
    (approve demoCrypto fsC5 "p" "new" "X" 2).2 = .ok "X" ∧
    lookupFile (approve demoCrypto fsC5 "p" "new" "X" 2).1.approvals "X" ≠
      some (.parsed { id := "X", ts := 1, message := "old" } (some "oldsig")) := by
  decide

/-- Witness for the amended C5: the overwrite theorem instantiated at the same
concrete collision state. -/
theorem C5_witness :
    lookupFile (approve demoCrypto fsC5 "p" "new" "X" 2).1.approvals "X" =
      some (.parsed { id := "X", ts := 2, message := "new" }
        (some (demoCrypto.hmacHex "p"
          (dumpsPayload { id := "X", ts := 2, message := "new" })))) :=
  C5_overwrite demoCrypto fsC5 "p" "new" "X" 2 (by decide)

/-- Counterexample for C6 as stated: at a concrete state with a valid PIN and
no ledger file, `approve` does not create the ledger — it ends in the
uncaught `FileNotFoundError` and the ledger file still does not exist. -/
theorem C6_counterexample :
    check_pin demoCrypto fsC6 "p" = true ∧
    (approve demoCrypto fsC6 "p" "m" "A" 1).2 = .fileNotFound ∧
    (approve demoCrypto fsC6 "p" "m" "A" 1).1.history = none := by
  decide

/-- Witness for the amended C6: the no-ledger theorem instantiated at the same
concrete state. -/
theorem C6_witness :
    verify_approval fsC6 "A" = false ∧
    verify_approval_with_pin demoCrypto fsC6 "A" "p" = false ∧
    (approve demoCrypto fsC6 "p" "m" "A" 1).1.history = none :=
  ⟨(C6_no_ledger demoCrypto fsC6 "p" "m" "A" 1 rfl).1,
   (C6_no_ledger demoCrypto fsC6 "p" "m" "A" 1 rfl).2.1 "p",
   (C6_no_ledger demoCrypto fsC6 "p" "m" "A" 1 rfl).2.2.2⟩

/-- Witness for C7: setting PIN `p` on a fresh state makes checking `p`
succeed and checking `q` fail. -/
theorem C7_witness :
    check_pin demoCrypto (set_pin demoCrypto fsC7 "YES" "p" "p" demoSalt) "p" = true ∧
    check_pin demoCrypto (set_pin demoCrypto fsC7 "YES" "p" "p" demoSalt) "q" = false :=
  ⟨(C7_set_then_check demoCrypto fsC7 "p" "YES" demoSalt (Or.inl rfl) (by decide)).1,
   (C7_set_then_check demoCrypto fsC7 "p" "YES" demoSalt (Or.inl rfl) (by decide)).2
     "q" (by decide)⟩

/-- Witness for C8: at a concrete state with a mutated payload and the stale
signature, strict verification fails with the PIN `p` (and the theorem gives
it for every PIN) while existence verification still succeeds. -/
theorem C8_witness :
    verify_approval_with_pin msgOnlyCrypto fsC8 "A" "p" = false ∧
    verify_approval fsC8 "A" = true :=
  ⟨(C8_mutation_invalidates msgOnlyCrypto fsC8 "A" pMut ("H" ++ dumpsPayload pOrig)
      "APPROVAL: id=A" (by decide) rfl (by decide)
      (fun pin => by
        show "H" ++ dumpsPayload pMut ≠ "H" ++ dumpsPayload pOrig
        decide)).1 "p",
   (C8_mutation_invalidates msgOnlyCrypto fsC8 "A" pMut ("H" ++ dumpsPayload pOrig)
      "APPROVAL: id=A" (by decide) rfl (by decide)
      (fun pin => by
        show "H" ++ dumpsPayload pMut ≠ "H" ++ dumpsPayload pOrig
        decide)).2⟩

/-- Witness for C9: a concrete `build` with secrets requested refuses with
exit code 2 both with no approval id and with an id that is not in the
ledger text. -/
theorem C9_witness :
    build (some "LOG") ["a.py"] true true none = .refused 2 ∧
    build (some "LOG") ["a.py"] true true (some "zzz") = .refused 2 :=
  ⟨(C9_build_gate (some "LOG") ["a.py"] true none).1 rfl,
   (C9_build_gate (some "LOG") ["a.py"] true (some "zzz")).2 "zzz" rfl
     (by decide) (by decide)⟩

/-- Witness for C10: the gate verdict instantiated at a concrete ledger text
equals the substring test. -/
theorem C10_witness :
    granted (build (some "id=deadbeef done") [] false true (some "deadbeef")) =
      ledgerContains (some "id=deadbeef done") "deadbeef" :=
  C10_gate_substring_only.1 (some "id=deadbeef done") [] false "deadbeef" (by decide)
